import Mathlib

/-!
Shallow embedding of `src/sqlite_performance_demo/main.c`, a benchmark harness
driving SQLite INSERT and UPDATE strategies, together with proofs of the
behavioural claims about it.

Modelling conventions:
* C `double` values are modelled as `ℚ` (every operation performed on them
  here — add 1.0, divide by a constant — is exact on the values involved).
* The SQLite `Test` table is modelled as a `List test_t` in physical row
  order; the PRIMARY KEY constraint on `key` and the engine invariant that
  rowids are unique are carried as `Nodup` hypotheses where needed.
* Fallible store operations are modelled with `Option` / an explicit
  status-checking runner; a fatal error (`die_db_error` in the source)
  is the `none` / error outcome.
* `rand()` is modelled as an oracle `g : ℕ → ℕ` giving the successive
  outputs of the C pseudo-random generator.
-/

/-! ### Compile-time constants of the program (main.c lines 18-21) -/

/-- Line 19: `#define NUM_EXECUTIONS 10000000`. -/
def NUM_EXECUTIONS : ℕ := 10000000

/-- Line 20: `#define RAND_DOUBLE_LIMIT 100.0`. -/
def RAND_DOUBLE_LIMIT : ℚ := 100

/-- Value of the C library constant `RAND_MAX` (the glibc value; the
argument below is independent of the particular positive value). -/
def C_RAND_MAX : ℕ := 2147483647

/-- SQLite status code `SQLITE_OK`. -/
def SQLITE_OK : ℕ := 0

/-- SQLite status code `SQLITE_ROW`. -/
def SQLITE_ROW : ℕ := 100

/-- SQLite status code `SQLITE_DONE`. -/
def SQLITE_DONE : ℕ := 101

/-! ### The row structure (main.c lines 36-43)

The C struct `test_t` holds a rowid, a 25-byte key buffer and four doubles.
The key is modelled as the string it holds. -/

/-- Row structure mirroring `struct test_t` of main.c lines 36-43. -/
structure test_t where
  rowid : ℤ
  key : String
  num1 : ℚ
  num2 : ℚ
  num3 : ℚ
  num4 : ℚ
deriving DecidableEq

/-! ### Decimal rendering: facts about `Nat.repr`

The insert loops build keys with `sprintf(key, "%d", i)` resp.
`sprintf(key, "K-%d", i)` (lines 238, 279, 331); the loop index is
non-negative, so `%d` is exactly the decimal rendering `Nat.repr`.
We prove `Nat.repr` injective by exhibiting a left inverse. -/

/-- Decode a list of decimal digit characters back to a natural number;
left inverse of the digit rendering inside `Nat.repr`. -/
def decodeDecChars (cs : List Char) : ℕ :=
  cs.foldl (fun a c => a * 10 + (c.toNat - 48)) 0

theorem toDigitsCore_acc (f : ℕ) :
    ∀ (n : ℕ) (acc : List Char),
      Nat.toDigitsCore 10 f n acc = Nat.toDigitsCore 10 f n [] ++ acc := by
  induction f with
  | zero => intro n acc; simp [Nat.toDigitsCore]
  | succ f ih =>
    intro n acc
    by_cases h : n / 10 = 0
    · simp [Nat.toDigitsCore, h]
    · simp only [Nat.toDigitsCore, h, if_false]
      rw [ih (n / 10) (Nat.digitChar (n % 10) :: acc),
        ih (n / 10) [Nat.digitChar (n % 10)], List.append_assoc]
      rfl

theorem toDigitsCore_fuel (f : ℕ) :
    ∀ (n f' : ℕ), n < f → n < f' →
      Nat.toDigitsCore 10 f n [] = Nat.toDigitsCore 10 f' n [] := by
  induction f with
  | zero => intro n f' h; omega
  | succ f ih =>
    intro n f' hf hf'
    obtain ⟨f'', rfl⟩ : ∃ f'', f' = f'' + 1 := ⟨f' - 1, by omega⟩
    by_cases h : n / 10 = 0
    · simp [Nat.toDigitsCore, h]
    · have hdiv : n / 10 < n := Nat.div_lt_self (by omega) (by omega)
      simp only [Nat.toDigitsCore, h, if_false]
      rw [toDigitsCore_acc f, toDigitsCore_acc f'']
      rw [ih (n / 10) f'' (by omega) (by omega)]

theorem digitChar_decode : ∀ m : Fin 10, (Nat.digitChar m.1).toNat - 48 = m.1 := by
  decide

theorem decode_toDigitsCore (f : ℕ) :
    ∀ n : ℕ, n < f → decodeDecChars (Nat.toDigitsCore 10 f n []) = n := by
  induction f with
  | zero => intro n h; omega
  | succ f ih =>
    intro n hf
    by_cases h : n / 10 = 0
    · have hn : n < 10 := by omega
      have hdc : (Nat.digitChar (n % 10)).toNat - 48 = n % 10 :=
        digitChar_decode ⟨n % 10, Nat.mod_lt n (by omega)⟩
      simp only [Nat.toDigitsCore, h, if_pos]
      simp only [decodeDecChars, List.foldl_cons, List.foldl_nil, Nat.zero_mul,
        Nat.zero_add]
      omega
    · have hdiv : n / 10 < n := Nat.div_lt_self (by omega) (by omega)
      simp only [Nat.toDigitsCore, h, if_false]
      rw [toDigitsCore_acc f]
      have hrec := ih (n / 10) (by omega)
      have hsplit :
          decodeDecChars (Nat.toDigitsCore 10 f (n / 10) [] ++ [Nat.digitChar (n % 10)]) =
            decodeDecChars (Nat.toDigitsCore 10 f (n / 10) []) * 10 +
              ((Nat.digitChar (n % 10)).toNat - 48) := by
        simp [decodeDecChars, List.foldl_append]
      rw [hsplit, hrec]
      have hdc : (Nat.digitChar (n % 10)).toNat - 48 = n % 10 :=
        digitChar_decode ⟨n % 10, Nat.mod_lt n (by omega)⟩
      omega

theorem decode_repr (n : ℕ) : decodeDecChars (Nat.repr n).data = n := by
  have : (Nat.repr n).data = Nat.toDigitsCore 10 (n + 1) n [] := rfl
  rw [this]
  exact decode_toDigitsCore (n + 1) n (Nat.lt_succ_self n)

theorem nat_repr_injective : Function.Injective Nat.repr := by
  intro a b h
  have : decodeDecChars (Nat.repr a).data = decodeDecChars (Nat.repr b).data := by rw [h]
  rwa [decode_repr, decode_repr] at this

/-! ### Key generation (main.c lines 238, 279, 331)

Line 238 (`insert_rows`): `sprintf(key, "%d", i);`
Line 279 (`insert_rows_xact`): `sprintf(key, "K-%d", i);`
Line 331 (`insert_rows_xact_prepared`): `sprintf(key, "K-%d", i);` -/

/-- Key generated for loop index `i` by `insert_rows` (line 238). -/
def key_insert_rows (i : ℕ) : String := Nat.repr i

/-- Key generated for loop index `i` by `insert_rows_xact` (line 279). -/
def key_insert_rows_xact (i : ℕ) : String := "K-" ++ Nat.repr i

/-- Key generated for loop index `i` by `insert_rows_xact_prepared` (line 331). -/
def key_insert_rows_xact_prepared (i : ℕ) : String := "K-" ++ Nat.repr i

theorem string_data_inj {s t : String} (h : s.data = t.data) : s = t :=
  congrArg String.mk h

theorem string_append_left_cancel {p a b : String} (h : p ++ a = p ++ b) : a = b := by
  apply string_data_inj
  have hd : p.data ++ a.data = p.data ++ b.data := by
    rw [← String.data_append, ← String.data_append, h]
  exact List.append_cancel_left hd

theorem key_insert_rows_injective : Function.Injective key_insert_rows :=
  fun _ _ h => nat_repr_injective h

theorem key_insert_rows_xact_injective : Function.Injective key_insert_rows_xact :=
  fun _ _ h => nat_repr_injective (string_append_left_cancel h)

theorem key_insert_rows_xact_prepared_injective :
    Function.Injective key_insert_rows_xact_prepared :=
  fun _ _ h => nat_repr_injective (string_append_left_cancel h)

/-! ### Table model and INSERT strategies

The `Test` table (created at lines 158-164 with `key TEXT ... PRIMARY KEY(key)`)
is modelled as a list of rows in physical order.  An INSERT appends a row,
with SQLite assigning the next free rowid; a PRIMARY KEY violation makes the
statement fail, which the harness turns into a fatal error — modelled as
`none`. -/

/-- Keys currently present in the table. -/
def tableKeys (t : List test_t) : List String := t.map test_t.key

/-- Rowid that SQLite assigns to a freshly inserted row (one more than the
largest rowid in use, 1 on an empty table). -/
def next_rowid (t : List test_t) : ℤ :=
  t.foldr (fun r m => max r.rowid m) 0 + 1

/-- One INSERT of row `r`; fails (fatally for the harness) when the
PRIMARY KEY constraint on `key` is violated. -/
def insert_row (t : List test_t) (r : test_t) : Option (List test_t) :=
  if r.key ∈ tableKeys t then none
  else some (t ++ [r])

/-- Simple random generator for doubles (main.c lines 219-221):
`return (double)rand() / (RAND_MAX / RAND_DOUBLE_LIMIT);` applied to one
output `r` of `rand()`. -/
def rand_double (r : ℕ) : ℚ :=
  (r : ℚ) / ((C_RAND_MAX : ℚ) / RAND_DOUBLE_LIMIT)

/-- Effect on a numeric value of passing it through the `%f` conversion in
the sprintf-built SQL text of `insert_rows` / `insert_rows_xact` (lines
248, 285): the value is rendered with six decimal places.  Modelled as
rounding to six decimal places (the inputs here are non-negative). -/
def sprintf_f (x : ℚ) : ℚ := (⌊x * 1000000 + 1 / 2⌋ : ℚ) / 1000000

/-- The row generated by iteration `i` of an insert loop: the key from the
loop sprintf, four random doubles consuming four successive `rand()`
outputs, and the engine-assigned rowid `rid`.  `fmt` is the value
transformation applied by the SQL-text route (`sprintf_f`) or the identity
for the parameter-binding route. -/
def gen_row (fmt : ℚ → ℚ) (keyf : ℕ → String) (g : ℕ → ℕ) (rid : ℤ) (i : ℕ) :
    test_t where
  rowid := rid
  key := keyf i
  num1 := fmt (rand_double (g (4 * i)))
  num2 := fmt (rand_double (g (4 * i + 1)))
  num3 := fmt (rand_double (g (4 * i + 2)))
  num4 := fmt (rand_double (g (4 * i + 3)))

/-- The body of one iteration of an insert loop: generate the row data and
execute the INSERT. -/
def insert_loop_body (fmt : ℚ → ℚ) (keyf : ℕ → String) (g : ℕ → ℕ) (i : ℕ)
    (t : List test_t) : Option (List test_t) :=
  insert_row t (gen_row fmt keyf g (next_rowid t) i)

/-- The insert loop `for (int i = 0; i < n; ++i)` run from index `i` for `k`
more iterations, stopping fatally on the first failed statement. -/
def run_insert_loop (fmt : ℚ → ℚ) (keyf : ℕ → String) (g : ℕ → ℕ) :
    ℕ → ℕ → List test_t → Option (List test_t)
  | _, 0, t => some t
  | i, k + 1, t =>
    match insert_loop_body fmt keyf g i t with
    | none => none
    | some t' => run_insert_loop fmt keyf g (i + 1) k t'

/-- Data effect of `insert_rows` (main.c lines 228-257) for `n` rows on
table `t`: sprintf-interpolated SQL, no transaction. -/
def insert_rows (g : ℕ → ℕ) (n : ℕ) (t : List test_t) : Option (List test_t) :=
  run_insert_loop sprintf_f key_insert_rows g 0 n t

/-- Data effect of `insert_rows_xact` (main.c lines 263-301): the same
sprintf-interpolated inserts inside one transaction. -/
def insert_rows_xact (g : ℕ → ℕ) (n : ℕ) (t : List test_t) : Option (List test_t) :=
  run_insert_loop sprintf_f key_insert_rows_xact g 0 n t

/-- Data effect of `insert_rows_xact_prepared` (main.c lines 308-370):
prepared statement with bound parameters, inside one transaction. -/
def insert_rows_xact_prepared (g : ℕ → ℕ) (n : ℕ) (t : List test_t) :
    Option (List test_t) :=
  run_insert_loop id key_insert_rows_xact_prepared g 0 n t

/-- Fixture setup for the update tests (main.c lines 177-180): create the
schema, then populate with `insert_rows_xact_prepared`. -/
def setup_update_test (g : ℕ → ℕ) (n : ℕ) : Option (List test_t) :=
  insert_rows_xact_prepared g n []

/-! ### The insert loop invariant -/

theorem run_insert_loop_spec (fmt : ℚ → ℚ) (keyf : ℕ → String)
    (hinj : Function.Injective keyf) (g : ℕ → ℕ) :
    ∀ (k i : ℕ) (t : List test_t),
      (∀ j, i ≤ j → j < i + k → keyf j ∉ tableKeys t) →
      ∃ t', run_insert_loop fmt keyf g i k t = some t' ∧
        t'.length = t.length + k ∧
        tableKeys t' = tableKeys t ++ (List.range' i k).map keyf := by
  intro k
  induction k with
  | zero => intro i t _; exact ⟨t, rfl, by simp, by simp⟩
  | succ k ih =>
    intro i t h
    have hnotin : keyf i ∉ tableKeys t := h i (le_refl i) (by omega)
    have hbody : insert_loop_body fmt keyf g i t =
        some (t ++ [gen_row fmt keyf g (next_rowid t) i]) := by
      simp [insert_loop_body, insert_row, gen_row, hnotin]
    obtain ⟨t'', hrun, hlen, hkeys⟩ := ih (i + 1)
      (t ++ [gen_row fmt keyf g (next_rowid t) i])
      (by
        intro j hj1 hj2
        simp only [tableKeys, gen_row, List.map_append, List.mem_append, List.map_cons,
          List.map_nil, List.mem_cons, List.not_mem_nil]
        push_neg
        refine ⟨h j (by omega) (by omega), fun hkey => ?_, fun hf => hf.elim⟩
        have : j = i := hinj hkey
        omega)
    refine ⟨t'', ?_, ?_, ?_⟩
    · simp only [run_insert_loop, hbody]
      exact hrun
    · simp only [hlen, List.length_append, List.length_cons, List.length_nil]
      omega
    · rw [hkeys]
      simp only [tableKeys, gen_row, List.map_append, List.map_cons, List.map_nil]
      rw [List.range'_succ i k 1, List.map_cons, List.append_assoc]
      rfl

/-! ### UPDATE strategies (main.c lines 377-465 and 473-556)

Both update strategies run, inside one transaction, a SELECT sweep over all
rows in a chosen order and, for each row of the cursor, execute a prepared
`UPDATE Test SET num1 = ?, num2 = ?, num3 = ?, num4 = ? WHERE <col> = ?`
binding the four numeric values read from the cursor plus 1.0 and the
value of the selector column.  The UPDATE statements never modify the
selector columns (`key` / `_rowid_`), so sweeping the initial snapshot of
the table is a faithful model of the interleaved cursor. -/

/-- Overwrite the four numeric columns of a row, as the parameterized
UPDATE statements do; `key` and `rowid` are untouched. -/
def set_nums (n1 n2 n3 n4 : ℚ) (x : test_t) : test_t :=
  { x with num1 := n1, num2 := n2, num3 := n3, num4 := n4 }

/-- Effect of one execution of the parameterized UPDATE: every row whose
selector column `σ` equals the bound value `v` receives the four bound
numbers. -/
def exec_update {α : Type} [DecidableEq α] (σ : test_t → α) (v : α)
    (n1 n2 n3 n4 : ℚ) (t : List test_t) : List test_t :=
  t.map fun x => if σ x = v then set_nums n1 n2 n3 n4 x else x

/-- Body of one iteration of the update loop: copy the row `r` out of the
SELECT cursor, add 1.0 to each numeric field (lines 426-429 resp. 520-523)
and execute the UPDATE keyed on the selector column of `r`. -/
def update_loop_step {α : Type} [DecidableEq α] (σ : test_t → α)
    (t : List test_t) (r : test_t) : List test_t :=
  exec_update σ (σ r) (r.num1 + 1) (r.num2 + 1) (r.num3 + 1) (r.num4 + 1) t

/-- The row the UPDATE statement produced from source row `r` writes over a
matching target `x`. -/
def assign_from (r x : test_t) : test_t :=
  set_nums (r.num1 + 1) (r.num2 + 1) (r.num3 + 1) (r.num4 + 1) x

/-- Row order produced by `SELECT key, ... FROM Test ORDER BY key;`
(line 392): ascending key order. -/
def select_order_by_key (t : List test_t) : List test_t :=
  List.insertionSort (fun a b => a.key ≤ b.key) t

/-- Row order produced by `SELECT _rowid_, ... FROM Test ORDER BY _rowid_;`
(line 492): ascending rowid order. -/
def select_order_by_rowid (t : List test_t) : List test_t :=
  List.insertionSort (fun a b => a.rowid ≤ b.rowid) t

/-- Data effect of `update_rows_pk` (main.c lines 377-465) on table `t`. -/
def update_rows_pk (t : List test_t) : List test_t :=
  (select_order_by_key t).foldl (update_loop_step test_t.key) t

/-- Data effect of `update_rows_rowid` (main.c lines 473-556) on table `t`. -/
def update_rows_rowid (t : List test_t) : List test_t :=
  (select_order_by_rowid t).foldl (update_loop_step test_t.rowid) t

/-- Adding 1.0 to each numeric field of a row, leaving key and rowid
unchanged: the intended per-row effect of one update sweep. -/
def inc_row (r : test_t) : test_t :=
  set_nums (r.num1 + 1) (r.num2 + 1) (r.num3 + 1) (r.num4 + 1) r

/-! ### Characterizing the update sweep -/

theorem foldl_update_step {α : Type} [DecidableEq α] (σ : test_t → α)
    (hσ : ∀ n1 n2 n3 n4 x, σ (set_nums n1 n2 n3 n4 x) = σ x) :
    ∀ (rs t : List test_t),
      rs.foldl (update_loop_step σ) t =
        t.map fun x =>
          match rs.reverse.find? (fun r => decide (σ r = σ x)) with
          | some r => assign_from r x
          | none => x := by
  intro rs
  induction rs with
  | nil => intro t; simp
  | cons r rs ih =>
    intro t
    rw [List.foldl_cons, ih]
    have hstep : update_loop_step σ t r =
        t.map fun x => if σ x = σ r then assign_from r x else x := rfl
    rw [hstep, List.map_map]
    apply List.map_congr_left
    intro x _
    simp only [Function.comp_apply, List.reverse_cons, List.find?_append]
    have hGx : σ (if σ x = σ r then assign_from r x else x) = σ x := by
      by_cases hc : σ x = σ r
      · rw [if_pos hc]; exact hσ _ _ _ _ x
      · rw [if_neg hc]
    rw [show (fun r' => decide (σ r' = σ (if σ x = σ r then assign_from r x else x)))
        = fun r' => decide (σ r' = σ x) by rw [hGx]]
    cases hfind : rs.reverse.find? (fun r' => decide (σ r' = σ x)) with
    | some r2 =>
      rw [Option.or_some]
      by_cases hc : σ x = σ r
      · rw [if_pos hc]; rfl
      · rw [if_neg hc]
    | none =>
      rw [Option.none_or]
      by_cases hc : σ r = σ x
      · rw [List.find?_cons_of_pos _ (by simpa using hc), if_pos hc.symm]
      · rw [List.find?_cons_of_neg _ (by simpa using hc),
          if_neg (fun h => hc h.symm)]
        rfl

theorem find?_self_of_nodup {α : Type} [DecidableEq α] (σ : test_t → α) :
    ∀ (l : List test_t) (x : test_t), (l.map σ).Nodup → x ∈ l →
      l.find? (fun r => decide (σ r = σ x)) = some x := by
  intro l
  induction l with
  | nil => intro x _ hx; cases hx
  | cons a l ih =>
    intro x hnd hx
    rw [List.map_cons, List.nodup_cons] at hnd
    by_cases hax : σ a = σ x
    · have hxa : x = a := by
        cases List.mem_cons.mp hx with
        | inl h => exact h
        | inr h => exact absurd (hax ▸ List.mem_map_of_mem σ h) hnd.1
      subst hxa
      rw [List.find?_cons_of_pos _ (by simp [hax])]
    · have hx' : x ∈ l := by
        cases List.mem_cons.mp hx with
        | inl h => exact absurd (h ▸ rfl) hax
        | inr h => exact h
      rw [List.find?_cons_of_neg _ (by simpa using hax)]
      exact ih x hnd.2 hx'

theorem update_sweep_eq_map {α : Type} [DecidableEq α] (σ : test_t → α)
    (hσ : ∀ n1 n2 n3 n4 x, σ (set_nums n1 n2 n3 n4 x) = σ x)
    (rs t : List test_t) (hperm : List.Perm rs t) (hnd : (t.map σ).Nodup) :
    rs.foldl (update_loop_step σ) t = t.map inc_row := by
  rw [foldl_update_step σ hσ]
  apply List.map_congr_left
  intro x hx
  have hnd' : (rs.reverse.map σ).Nodup := by
    rw [List.map_reverse, List.nodup_reverse]
    exact ((hperm.map σ).nodup_iff).mpr hnd
  have hx' : x ∈ rs.reverse := List.mem_reverse.mpr (hperm.mem_iff.mpr hx)
  rw [find?_self_of_nodup σ rs.reverse x hnd' hx']
  rfl

theorem update_rows_pk_eq_map (t : List test_t)
    (h : (t.map test_t.key).Nodup) : update_rows_pk t = t.map inc_row :=
  update_sweep_eq_map test_t.key (fun _ _ _ _ _ => rfl) _ t
    (List.perm_insertionSort _ t) h

theorem update_rows_rowid_eq_map (t : List test_t)
    (h : (t.map test_t.rowid).Nodup) : update_rows_rowid t = t.map inc_row :=
  update_sweep_eq_map test_t.rowid (fun _ _ _ _ _ => rfl) _ t
    (List.perm_insertionSort _ t) h

/-! ### Fatal error handling (main.c lines 109-116)

`die_db_error` prints the last SQLite error message, prompts the user and
calls `exit(-1)`.  Modelled as the pair of the console output and the
process exit status. -/

/-- Behaviour of `die_db_error` (main.c lines 109-116): the console output
produced and the exit status passed to `exit`. -/
def die_db_error (errmsg : String) : String × ℤ :=
  ("SQLite Error - " ++ errmsg ++ "\n" ++ "PRESS ANY KEY TO EXIT.\n", -1)

/-- Runner over the sequence of status-checked store calls of a strategy.
`expected` lists, in program order, the success status each checked call is
compared against (`SQLITE_OK` for `sqlite3_exec` / open / close / prepare,
`SQLITE_DONE` for a mutation `sqlite3_step`); the oracle `g` gives the
status actually returned by the i-th call.  Returns the fatal outcome (if
any) together with the total number of checked store calls issued. -/
def run_checked_calls (errmsg : String) :
    List ℕ → (ℕ → ℕ) → ℕ → Option (String × ℤ) × ℕ
  | [], _, calls => (none, calls)
  | e :: es, g, calls =>
    if g calls = e then run_checked_calls errmsg es g (calls + 1)
    else (some (die_db_error errmsg), calls + 1)

/-- Status-checked store calls of `insert_rows` (lines 228-257) for `n`
rows: one `sqlite3_exec` per row, each checked against `SQLITE_OK`. -/
def checked_calls_insert_rows (n : ℕ) : List ℕ :=
  List.replicate n SQLITE_OK

/-- Status-checked store calls of `insert_rows_xact` (lines 263-301):
BEGIN, `n` single-row execs, COMMIT — all checked against `SQLITE_OK`. -/
def checked_calls_insert_rows_xact (n : ℕ) : List ℕ :=
  SQLITE_OK :: List.replicate n SQLITE_OK ++ [SQLITE_OK]

/-- Status-checked store calls of `insert_rows_xact_prepared`
(lines 308-370): BEGIN and prepare checked against `SQLITE_OK`, one
`sqlite3_step` per row checked against `SQLITE_DONE` (line 346-349), then
COMMIT checked against `SQLITE_OK`. -/
def checked_calls_insert_rows_xact_prepared (n : ℕ) : List ℕ :=
  SQLITE_OK :: SQLITE_OK :: List.replicate n SQLITE_DONE ++ [SQLITE_OK]

/-- Status-checked store calls of either update strategy for a table of
`rows` rows: BEGIN and two prepares checked against `SQLITE_OK`, one
update `sqlite3_step` per row checked against `SQLITE_DONE` (lines 443-446
resp. 534-537), then COMMIT.  The select-cursor steps are not
status-checked by the code (the `while` loop merely stops on any non-ROW
status). -/
def checked_calls_update (rows : ℕ) : List ℕ :=
  SQLITE_OK :: SQLITE_OK :: SQLITE_OK :: List.replicate rows SQLITE_DONE ++ [SQLITE_OK]

theorem run_checked_calls_aux (errmsg : String) :
    ∀ (expected : List ℕ) (g : ℕ → ℕ) (c k : ℕ) (hk : k < expected.length),
      g (c + k) ≠ expected.get ⟨k, hk⟩ →
      (∀ j, (hj : j < k) → g (c + j) = expected.get ⟨j, lt_trans hj hk⟩) →
      run_checked_calls errmsg expected g c = (some (die_db_error errmsg), c + k + 1) := by
  intro expected
  induction expected with
  | nil => intro g c k hk; exact absurd hk (by simp)
  | cons e es ih =>
    intro g c k hk hfail hpre
    cases k with
    | zero =>
      have : g c ≠ e := by simpa using hfail
      simp [run_checked_calls, this]
    | succ k =>
      have h0 : g c = e := by
        have := hpre 0 (Nat.succ_pos k)
        simpa using this
      have hstep : run_checked_calls errmsg (e :: es) g c =
          run_checked_calls errmsg es g (c + 1) := by
        simp [run_checked_calls, h0]
      rw [hstep]
      have hk' : k < es.length := by simpa using hk
      have hfail' : g (c + 1 + k) ≠ es.get ⟨k, hk'⟩ := by
        have : c + 1 + k = c + (k + 1) := by omega
        rw [this]
        exact hfail
      have hpre' : ∀ j, (hj : j < k) → g (c + 1 + j) = es.get ⟨j, lt_trans hj hk'⟩ := by
        intro j hj
        have harg : c + 1 + j = c + (j + 1) := by omega
        rw [harg]
        have := hpre (j + 1) (by omega)
        simpa using this
      have := ih g (c + 1) k hk' hfail' hpre'
      rw [this]
      congr 1
      omega

/-- On a run in which every checked call returns its expected success
status, all the checked calls are issued and no fatal exit occurs. -/
theorem run_checked_calls_success (errmsg : String) :
    ∀ (expected : List ℕ) (g : ℕ → ℕ) (c : ℕ),
      (∀ j, (hj : j < expected.length) → g (c + j) = expected.get ⟨j, hj⟩) →
      run_checked_calls errmsg expected g c = (none, c + expected.length) := by
  intro expected
  induction expected with
  | nil => intro g c _; simp [run_checked_calls]
  | cons e es ih =>
    intro g c hok
    have h0 : g c = e := by simpa using hok 0 (by simp)
    have hstep : run_checked_calls errmsg (e :: es) g c =
        run_checked_calls errmsg es g (c + 1) := by
      simp [run_checked_calls, h0]
    rw [hstep, ih g (c + 1) (by
      intro j hj
      have harg : c + 1 + j = c + (j + 1) := by omega
      rw [harg]
      have := hok (j + 1) (by simpa using Nat.succ_lt_succ hj)
      simpa using this)]
    simp only [List.length_cons]
    congr 1
    omega

/-! ### Timing report (main.c lines 187-213)

`time_test_execution` computes
`time_ms = (end - start) / (double)CLOCKS_PER_SEC;` and prints
`NUM_EXECUTIONS / time_ms` with no guard on `time_ms`.  Clock readings are
modelled as integers; the reported rows/sec value is `none` exactly when
the division has a zero divisor, i.e. when the IEEE quotient would not be
a finite number. -/

/-- POSIX value of `CLOCKS_PER_SEC` (any positive value gives the same
statements below). -/
def CLOCKS_PER_SEC : ℤ := 1000000

/-- Elapsed seconds as computed at main.c line 211. -/
def elapsed_seconds (startc endc : ℤ) : ℚ :=
  ((endc - startc : ℤ) : ℚ) / (CLOCKS_PER_SEC : ℚ)

/-- The rows/sec figure printed at main.c line 212:
`NUM_EXECUTIONS / time_ms`.  The division is performed unconditionally in
the source; `none` models the non-finite IEEE result produced when the
elapsed time is zero. -/
def reported_rows_per_sec (startc endc : ℤ) : Option ℚ :=
  if elapsed_seconds startc endc = 0 then none
  else some ((NUM_EXECUTIONS : ℚ) / elapsed_seconds startc endc)

/-! ### The pseudo-random generator across the whole run (main.c line 72-103)

The program never calls `srand`, so the C library generator starts from
its default internal seed (the C standard specifies that the sequence is
then the same as after `srand(1)`).  We model the internal generator state
and record, for the whole `main` run, the sequence of generator calls the
program makes. -/

/-- One call of the C library generator, or a reseeding call (never made
by this program). -/
inductive RngCall : Type where
  | randCall : RngCall
  | srandCall (seed : ℕ) : RngCall
deriving DecidableEq

/-- Default initial state of the C generator: per the C standard, the
sequence with no `srand` call equals the sequence after `srand(1)`. -/
def RAND_SEED_DEFAULT : ℕ := 1

/-- State transition of the reference C generator
(`next = next * 1103515245 + 12345`, state kept modulo 2^32).  The exact
constants are implementation-defined; any deterministic transition
supports the statements below. -/
def rand_step (s : ℕ) : ℕ := (s * 1103515245 + 12345) % 4294967296

/-- Output extracted from the generator state
(`(unsigned int)(next / 65536) % 32768` in the reference implementation). -/
def rand_output (s : ℕ) : ℕ := (s / 65536) % 32768

/-- Run a sequence of generator calls from state `s`: returns the outputs
of the `rand` calls in order together with the final state. -/
def runRng : List RngCall → ℕ → List ℕ × ℕ
  | [], s => ([], s)
  | RngCall.randCall :: ops, s =>
    let s' := rand_step s
    let p := runRng ops s'
    (rand_output s' :: p.1, p.2)
  | RngCall.srandCall seed :: ops, _ => runRng ops seed

/-- Generator calls made by one insert-strategy run over `n` rows: four
`rand()` calls per row (lines 239-242, 280-283, 332-335), no reseeding. -/
def strategy_rng_calls (n : ℕ) : List RngCall :=
  List.replicate (4 * n) RngCall.randCall

/-- Generator calls made by the whole `main` run (main.c lines 72-103)
with row count `n`: the two timed insert strategies, then the fixture
population for each of the two update tests (`setup_update_test` runs
`insert_rows_xact_prepared`); the update loops themselves never call the
generator, and no part of the program calls `srand`. -/
def main_rng_calls (n : ℕ) : List RngCall :=
  strategy_rng_calls n ++ strategy_rng_calls n ++
    strategy_rng_calls n ++ strategy_rng_calls n

theorem main_rng_calls_no_srand (n : ℕ) (seed : ℕ) :
    RngCall.srandCall seed ∉ main_rng_calls n := by
  intro hmem
  simp only [main_rng_calls, strategy_rng_calls, List.mem_append,
    List.mem_replicate] at hmem
  rcases hmem with ((⟨_, h⟩ | ⟨_, h⟩) | ⟨_, h⟩) | ⟨_, h⟩ <;> cases h

/-! ### Concrete fixture (spec section 8) used by witnesses -/

/-- The concrete three-row fixture named in the spec: rows (K-0,1,1,1,1),
(K-1,2,2,2,2), (K-2,3,3,3,3) with rowids 1, 2, 3. -/
def fixture3 : List test_t :=
  [{ rowid := 1, key := "K-0", num1 := 1, num2 := 1, num3 := 1, num4 := 1 },
   { rowid := 2, key := "K-1", num1 := 2, num2 := 2, num3 := 2, num4 := 2 },
   { rowid := 3, key := "K-2", num1 := 3, num2 := 3, num3 := 3, num4 := 3 }]

/-! ### Claims -/

/-- C1: For every fixture table state (any table satisfying the two store
invariants the engine enforces: uniqueness of the PRIMARY KEY column and
uniqueness of rowids), running either update strategy (`update_rows_pk` or
`update_rows_rowid`) to completion leaves the table with the same number
of rows as before, and the final table is exactly the initial table with
each row sent to `inc_row`, which adds 1.0 to each of the four numeric
fields and leaves the key (and rowid) unchanged. -/
theorem C1_update_strategies_increment (t : List test_t)
    (hkey : (t.map test_t.key).Nodup) (hrid : (t.map test_t.rowid).Nodup) :
    (update_rows_pk t).length = t.length ∧
    (update_rows_rowid t).length = t.length ∧
    update_rows_pk t = t.map inc_row ∧
    update_rows_rowid t = t.map inc_row ∧
    ∀ r : test_t, (inc_row r).key = r.key ∧ (inc_row r).rowid = r.rowid ∧
      (inc_row r).num1 = r.num1 + 1 ∧ (inc_row r).num2 = r.num2 + 1 ∧
      (inc_row r).num3 = r.num3 + 1 ∧ (inc_row r).num4 = r.num4 + 1 := by
  refine ⟨?_, ?_, update_rows_pk_eq_map t hkey, update_rows_rowid_eq_map t hrid,
    fun r => ⟨rfl, rfl, rfl, rfl, rfl, rfl⟩⟩
  · rw [update_rows_pk_eq_map t hkey, List.length_map]
  · rw [update_rows_rowid_eq_map t hrid, List.length_map]

/-- Witness for C1 at the concrete spec fixture. -/
theorem C1_witness :
    ((fixture3.map test_t.key).Nodup ∧ (fixture3.map test_t.rowid).Nodup) ∧
    update_rows_pk fixture3 = fixture3.map inc_row :=
  ⟨⟨by decide, by decide⟩,
    (C1_update_strategies_increment fixture3 (by decide) (by decide)).2.2.1⟩

/-- C2: On any table satisfying the two store uniqueness invariants — in
particular on any fixture both strategies are ever run on — the
primary-key update strategy and the rowid update strategy produce
identical final table contents, although one iterates in ascending key
order and the other in ascending rowid order. -/
theorem C2_update_orders_agree (t : List test_t)
    (hkey : (t.map test_t.key).Nodup) (hrid : (t.map test_t.rowid).Nodup) :
    update_rows_pk t = update_rows_rowid t := by
  rw [update_rows_pk_eq_map t hkey, update_rows_rowid_eq_map t hrid]

/-- Witness for C2 at the concrete spec fixture. -/
theorem C2_witness :
    ((fixture3.map test_t.key).Nodup ∧ (fixture3.map test_t.rowid).Nodup) ∧
    update_rows_pk fixture3 = update_rows_rowid fixture3 :=
  ⟨⟨by decide, by decide⟩, C2_update_orders_agree fixture3 (by decide) (by decide)⟩

/-- C3: for every row count `n` and every oracle of generator outputs,
each of the three insert strategies, run from an empty table, completes
without a fatal error and leaves exactly `n` rows in the table. -/
theorem C3_insert_strategies_row_count (g : ℕ → ℕ) (n : ℕ) :
    (∃ t, insert_rows g n [] = some t ∧ t.length = n) ∧
    (∃ t, insert_rows_xact g n [] = some t ∧ t.length = n) ∧
    (∃ t, insert_rows_xact_prepared g n [] = some t ∧ t.length = n) := by
  refine ⟨?_, ?_, ?_⟩
  · obtain ⟨t', h1, h2, _⟩ := run_insert_loop_spec sprintf_f key_insert_rows
      key_insert_rows_injective g n 0 [] (by simp [tableKeys])
    exact ⟨t', h1, by simpa using h2⟩
  · obtain ⟨t', h1, h2, _⟩ := run_insert_loop_spec sprintf_f key_insert_rows_xact
      key_insert_rows_xact_injective g n 0 [] (by simp [tableKeys])
    exact ⟨t', h1, by simpa using h2⟩
  · obtain ⟨t', h1, h2, _⟩ := run_insert_loop_spec id key_insert_rows_xact_prepared
      key_insert_rows_xact_prepared_injective g n 0 [] (by simp [tableKeys])
    exact ⟨t', h1, by simpa using h2⟩

/-- C4: for every `n`, the `n` key strings generated for indices
`0 .. n-1` within one run of any of the three insert strategies are
pairwise distinct. -/
theorem C4_generated_keys_distinct (n : ℕ) :
    ((List.range n).map key_insert_rows).Nodup ∧
    ((List.range n).map key_insert_rows_xact).Nodup ∧
    ((List.range n).map key_insert_rows_xact_prepared).Nodup :=
  ⟨(List.nodup_range n).map key_insert_rows_injective,
   (List.nodup_range n).map key_insert_rows_xact_injective,
   (List.nodup_range n).map key_insert_rows_xact_prepared_injective⟩

/-- C5 counterexample: the claim that one fixed key text precedes the
decimal index in ALL strategies fails — no single string can serve as the
common leading text, because at index 0 `insert_rows` generates the key
"0" (line 238 uses the format "%d") while `insert_rows_xact` generates
"K-0" (line 279 uses the format "K-%d"). -/
theorem C5_counterexample :
    ¬ ∃ p : String,
      (∀ i, key_insert_rows i = p ++ Nat.repr i) ∧
      (∀ i, key_insert_rows_xact i = p ++ Nat.repr i) ∧
      (∀ i, key_insert_rows_xact_prepared i = p ++ Nat.repr i) := by
  rintro ⟨p, h1, h2, _⟩
  have h := (h1 0).trans (h2 0).symm
  exact absurd h (by decide)

/-- C5 amended: each strategy generates its keys as one fixed leading text
followed by the decimal representation of the loop index, and the two
transactional strategies share the same leading text "K-"; but
`insert_rows` uses the empty leading text, so the text is not shared by
all three strategies. -/
theorem C5_keys_fixed_text_per_strategy :
    (∀ i, key_insert_rows i = "" ++ Nat.repr i) ∧
    (∀ i, key_insert_rows_xact i = "K-" ++ Nat.repr i) ∧
    (∀ i, key_insert_rows_xact_prepared i = "K-" ++ Nat.repr i) ∧
    key_insert_rows_xact = key_insert_rows_xact_prepared :=
  ⟨fun _ => rfl, fun _ => rfl, fun _ => rfl, rfl⟩

/-- C6 counterexample: at the maximal generator output `r = RAND_MAX` the
value returned by `rand_double` is exactly 100.0 — not strictly below it:
RAND_MAX / (RAND_MAX / 100.0) = 100.0. -/
theorem C6_counterexample :
    rand_double C_RAND_MAX = RAND_DOUBLE_LIMIT ∧
    ¬ rand_double C_RAND_MAX < RAND_DOUBLE_LIMIT := by
  have h : rand_double C_RAND_MAX = RAND_DOUBLE_LIMIT := by
    simp only [rand_double, C_RAND_MAX, RAND_DOUBLE_LIMIT]
    norm_num
  exact ⟨h, by rw [h]; exact lt_irrefl _⟩

/-- C6 amended: for every generator output `r` with `0 ≤ r ≤ RAND_MAX`,
`rand_double r` lies in the closed interval [0, 100.0]; it is strictly
below 100.0 for every `r < RAND_MAX` and reaches exactly 100.0 at
`r = RAND_MAX`, so the half-open interval claim fails only at that single
topmost output. -/
theorem C6_rand_double_range (r : ℕ) (h : r ≤ C_RAND_MAX) :
    0 ≤ rand_double r ∧ rand_double r ≤ RAND_DOUBLE_LIMIT ∧
    (r < C_RAND_MAX → rand_double r < RAND_DOUBLE_LIMIT) := by
  have hpos : (0 : ℚ) < (C_RAND_MAX : ℚ) / RAND_DOUBLE_LIMIT := by
    simp only [C_RAND_MAX, RAND_DOUBLE_LIMIT]
    norm_num
  refine ⟨?_, ?_, ?_⟩
  · exact div_nonneg (Nat.cast_nonneg r) hpos.le
  · rw [rand_double, div_le_iff₀ hpos]
    have h' : r ≤ 2147483647 := h
    have hgoal : RAND_DOUBLE_LIMIT * ((C_RAND_MAX : ℚ) / RAND_DOUBLE_LIMIT) =
        ((2147483647 : ℕ) : ℚ) := by
      simp only [C_RAND_MAX, RAND_DOUBLE_LIMIT]
      norm_num
    rw [hgoal]
    exact_mod_cast h'
  · intro hlt
    rw [rand_double, div_lt_iff₀ hpos]
    have h' : r < 2147483647 := hlt
    have hgoal : RAND_DOUBLE_LIMIT * ((C_RAND_MAX : ℚ) / RAND_DOUBLE_LIMIT) =
        ((2147483647 : ℕ) : ℚ) := by
      simp only [C_RAND_MAX, RAND_DOUBLE_LIMIT]
      norm_num
    rw [hgoal]
    exact_mod_cast h'

/-- Witness for C6 at the concrete generator output 7. -/
theorem C6_witness :
    7 ≤ C_RAND_MAX ∧
    (0 ≤ rand_double 7 ∧ rand_double 7 ≤ RAND_DOUBLE_LIMIT ∧
      (7 < C_RAND_MAX → rand_double 7 < RAND_DOUBLE_LIMIT)) :=
  ⟨by decide, C6_rand_double_range 7 (by decide)⟩

/-- C7: whenever one of the status-checked store calls of a strategy (the
`sqlite3_exec` / open / close / prepare calls checked against SQLITE_OK
and the mutation `sqlite3_step` calls checked against SQLITE_DONE) is the
first to return a status other than its expected success status, the run
terminates fatally: the console output of `die_db_error` carries the last
store error message and a prompt, the process exit status is -1 (non-zero),
and exactly the calls up to and including the failing one are ever issued
— the failing call is not retried and no later call is made. -/
theorem C7_fatal_error_policy (errmsg : String) (expected : List ℕ) (g : ℕ → ℕ)
    (k : ℕ) (hk : k < expected.length)
    (hfail : g k ≠ expected.get ⟨k, hk⟩)
    (hpre : ∀ j (hj : j < k), g j = expected.get ⟨j, lt_trans hj hk⟩) :
    run_checked_calls errmsg expected g 0 = (some (die_db_error errmsg), k + 1) ∧
    die_db_error errmsg =
      ("SQLite Error - " ++ errmsg ++ "\n" ++ "PRESS ANY KEY TO EXIT.\n", -1) ∧
    (die_db_error errmsg).2 ≠ 0 := by
  refine ⟨?_, rfl, by simp [die_db_error]⟩
  have haux := run_checked_calls_aux errmsg expected g 0 k hk
    (by simpa using hfail) (by intro j hj; simpa using hpre j hj)
  simpa using haux

/-- Witness for C7: running `insert_rows_xact` for one row against a
store whose second checked call (the row INSERT) returns status 5
(SQLITE_BUSY) while the first call succeeded. -/
theorem C7_witness :
    run_checked_calls "database is locked" (checked_calls_insert_rows_xact 1)
        (fun i => if i = 1 then 5 else SQLITE_OK) 0 =
      (some (die_db_error "database is locked"), 1 + 1) ∧
    die_db_error "database is locked" =
      ("SQLite Error - " ++ "database is locked" ++ "\n" ++
        "PRESS ANY KEY TO EXIT.\n", -1) ∧
    (die_db_error "database is locked").2 ≠ 0 :=
  C7_fatal_error_policy "database is locked" (checked_calls_insert_rows_xact 1)
    (fun i => if i = 1 then 5 else SQLITE_OK) 1 (by decide) (by decide)
    (fun j hj => by
      have hj0 : j = 0 := by omega
      subst hj0
      rfl)

/-- C8 counterexample: when the two clock readings coincide — the measured
elapsed time rounds to zero — the rows/sec computation at main.c line 212
divides by zero with no guard, so no finite figure is produced (the claim
that the computation is guarded fails). -/
theorem C8_counterexample : reported_rows_per_sec 42 42 = none := by
  simp [reported_rows_per_sec, elapsed_seconds]

/-- C8 amended: the reported rows/sec equals NUM_EXECUTIONS divided by the
elapsed seconds whenever the elapsed tick count is non-zero; the division
is not guarded, and when the end reading equals the start reading the
computation yields no finite value. -/
theorem C8_rows_per_sec_formula (startc endc : ℤ) (h : endc ≠ startc) :
    reported_rows_per_sec startc endc =
      some ((NUM_EXECUTIONS : ℚ) / elapsed_seconds startc endc) ∧
    reported_rows_per_sec startc startc = none := by
  constructor
  · have hne : elapsed_seconds startc endc ≠ 0 := by
      simp only [elapsed_seconds, div_ne_zero_iff]
      constructor
      · exact_mod_cast sub_ne_zero.mpr h
      · simp only [CLOCKS_PER_SEC]
        norm_num
    simp [reported_rows_per_sec, hne]
  · simp [reported_rows_per_sec, elapsed_seconds]

/-- Witness for C8 at start tick 0 and end tick 1000000. -/
theorem C8_witness :
    (1000000 : ℤ) ≠ 0 ∧
    (reported_rows_per_sec 0 1000000 =
      some ((NUM_EXECUTIONS : ℚ) / elapsed_seconds 0 1000000) ∧
     reported_rows_per_sec 0 0 = none) :=
  ⟨by decide, C8_rows_per_sec_formula 0 1000000 (by decide)⟩

/-! ### Key length bounds for C9 -/

theorem key_length_insert_rows (j : ℕ) (hj : j < NUM_EXECUTIONS) :
    (key_insert_rows j).length ≤ 24 := by
  have h8 : (Nat.repr j).length ≤ 8 :=
    Nat.repr_length j 8 (by norm_num)
      (lt_of_lt_of_le hj (by norm_num [NUM_EXECUTIONS]))
  have : (key_insert_rows j).length = (Nat.repr j).length := rfl
  omega

theorem key_length_insert_rows_xact (j : ℕ) (hj : j < NUM_EXECUTIONS) :
    (key_insert_rows_xact j).length ≤ 24 := by
  have h8 : (Nat.repr j).length ≤ 8 :=
    Nat.repr_length j 8 (by norm_num)
      (lt_of_lt_of_le hj (by norm_num [NUM_EXECUTIONS]))
  have hsplit : (key_insert_rows_xact j).length = "K-".length + (Nat.repr j).length :=
    String.length_append "K-" (Nat.repr j)
  have h2 : "K-".length = 2 := rfl
  omega

theorem key_length_insert_rows_xact_prepared (j : ℕ) (hj : j < NUM_EXECUTIONS) :
    (key_insert_rows_xact_prepared j).length ≤ 24 := by
  have h8 : (Nat.repr j).length ≤ 8 :=
    Nat.repr_length j 8 (by norm_num)
      (lt_of_lt_of_le hj (by norm_num [NUM_EXECUTIONS]))
  have hsplit :
      (key_insert_rows_xact_prepared j).length = "K-".length + (Nat.repr j).length :=
    String.length_append "K-" (Nat.repr j)
  have h2 : "K-".length = 2 := rfl
  omega

/-- Keys of the fixture table populated by `insert_rows_xact_prepared`
from an empty table: exactly the generated keys, in insertion order. -/
theorem fixture_keys (g : ℕ → ℕ) (n : ℕ) (t : List test_t)
    (ht : insert_rows_xact_prepared g n [] = some t) :
    tableKeys t = (List.range' 0 n).map key_insert_rows_xact_prepared := by
  obtain ⟨t', h1, _, h3⟩ := run_insert_loop_spec id key_insert_rows_xact_prepared
    key_insert_rows_xact_prepared_injective g n 0 [] (by simp [tableKeys])
  simp only [insert_rows_xact_prepared] at ht
  have heq : t = t' := Option.some.inj (ht.symm.trans h1)
  subst heq
  rw [h3]
  simp [tableKeys]

/-- C9: every key any insert strategy generates for an index below the
configured row count NUM_EXECUTIONS has at most 24 characters, and every
key stored in the fixture table that `update_rows_pk` reads back and
copies with `strcpy` (line 416) has at most 24 characters, so the writes
into the fixed 25-byte key buffers (the sprintf calls at lines 238, 279,
331 and the strcpy at line 416) never exceed the buffer bound. -/
theorem C9_keys_fit_buffer (i : ℕ) (hi : i < NUM_EXECUTIONS) :
    (key_insert_rows i).length ≤ 24 ∧
    (key_insert_rows_xact i).length ≤ 24 ∧
    (key_insert_rows_xact_prepared i).length ≤ 24 ∧
    ∀ (g : ℕ → ℕ) (t : List test_t),
      insert_rows_xact_prepared g NUM_EXECUTIONS [] = some t →
      ∀ r ∈ t, r.key.length ≤ 24 := by
  refine ⟨key_length_insert_rows i hi, key_length_insert_rows_xact i hi,
    key_length_insert_rows_xact_prepared i hi, ?_⟩
  intro g t ht r hr
  have hk : r.key ∈ tableKeys t := List.mem_map_of_mem test_t.key hr
  rw [fixture_keys g NUM_EXECUTIONS t ht] at hk
  obtain ⟨j, hj, hkey⟩ := List.mem_map.mp hk
  have hjlt : j < NUM_EXECUTIONS := by
    obtain ⟨m, hm, rfl⟩ := List.mem_range'.mp hj
    omega
  rw [← hkey]
  exact key_length_insert_rows_xact_prepared j hjlt

/-- Witness for C9 at the largest in-range index. -/
theorem C9_witness :
    9999999 < NUM_EXECUTIONS ∧
    ((key_insert_rows 9999999).length ≤ 24 ∧
     (key_insert_rows_xact 9999999).length ≤ 24 ∧
     (key_insert_rows_xact_prepared 9999999).length ≤ 24 ∧
     ∀ (g : ℕ → ℕ) (t : List test_t),
       insert_rows_xact_prepared g NUM_EXECUTIONS [] = some t →
       ∀ r ∈ t, r.key.length ≤ 24) :=
  ⟨by decide, C9_keys_fit_buffer 9999999 (by decide)⟩

/-- C10: the harness is deterministic across complete runs: the generator
call trace of `main` contains no reseeding call (the program never calls
`srand`), so two complete executions both start the C generator from its
fixed default internal state, observe the same sequence of generator
outputs, and therefore feed identical row data to the insert loops. -/
theorem C10_deterministic_runs (n : ℕ) (s1 s2 : ℕ)
    (h1 : s1 = RAND_SEED_DEFAULT) (h2 : s2 = RAND_SEED_DEFAULT) :
    (∀ seed, RngCall.srandCall seed ∉ main_rng_calls n) ∧
    (runRng (main_rng_calls n) s1).1 = (runRng (main_rng_calls n) s2).1 ∧
    ∀ (fmt : ℚ → ℚ) (keyf : ℕ → String) (k : ℕ) (t : List test_t),
      run_insert_loop fmt keyf
          (fun idx => ((runRng (main_rng_calls n) s1).1).getD idx 0) 0 k t =
        run_insert_loop fmt keyf
          (fun idx => ((runRng (main_rng_calls n) s2).1).getD idx 0) 0 k t := by
  subst h1; subst h2
  exact ⟨main_rng_calls_no_srand n, rfl, fun _ _ _ _ => rfl⟩

/-- Witness for C10 at row count 2 and the default seed on both runs. -/
theorem C10_witness :
    ((1 : ℕ) = RAND_SEED_DEFAULT ∧ (1 : ℕ) = RAND_SEED_DEFAULT) ∧
    ((∀ seed, RngCall.srandCall seed ∉ main_rng_calls 2) ∧
     (runRng (main_rng_calls 2) 1).1 = (runRng (main_rng_calls 2) 1).1 ∧
     ∀ (fmt : ℚ → ℚ) (keyf : ℕ → String) (k : ℕ) (t : List test_t),
       run_insert_loop fmt keyf
           (fun idx => ((runRng (main_rng_calls 2) 1).1).getD idx 0) 0 k t =
         run_insert_loop fmt keyf
           (fun idx => ((runRng (main_rng_calls 2) 1).1).getD idx 0) 0 k t) :=
  ⟨⟨by decide, by decide⟩, C10_deterministic_runs 2 1 1 (by decide) (by decide)⟩
